import Mathlib

/-!
Verification of the finops-saas tagging-compliance system.

The repository's sources under `src/` contain the React frontend (notably the
`ComplianceOverview` dashboard component), deployment configuration and the
implementation guide.  The backend core (compliance engine, remediation
workflow engine, scan orchestrator) is referenced by the guide and consumed by
the frontend API clients but its Python sources are not present; those parts
are modelled from the specification, each such definition carrying a doc
comment starting with `Modelled from the spec:`.
-/

namespace FinOps

/-- Compliance status of a resource, §3 of the spec: one of compliant,
non_compliant, unknown, exempt. -/
inductive Status where
  | compliant
  | non_compliant
  | unknown
  | exempt
deriving DecidableEq

/-- Reason of a tag violation: the required tag is missing, or present with a
value outside the allowed set. -/
inductive Reason where
  | missing
  | invalid_value
deriving DecidableEq

/-- A single tag violation: which tag, why, whether it is auto-remediable and
the suggested remediation value (the rule's default_value, when present). -/
structure TagViolation where
  tag_name : String
  reason : Reason
  auto_remediable : Bool
  suggested_value : Option String
deriving DecidableEq

/-- ComplianceRecord, §3: keyed by resource identity (provider, native_id),
with a status and the ordered violations. -/
structure ComplianceRecord where
  resource_id : String × String
  status : Status
  violations : List TagViolation
deriving DecidableEq

/-- The summary shape returned by `evaluate_compliance()`, §6: total,
per-status counts, and the overall compliance rate. -/
structure ComplianceSummary where
  total_resources : Nat
  compliant : Nat
  non_compliant : Nat
  unknown : Nat
  exempt : Nat
  compliance_rate : ℚ
deriving DecidableEq

/-- Modelled from the spec: the backend operation `evaluate_compliance()`
(core compliance engine, absent from src/) aggregates the compliance records
into the §6 summary, with
compliance_rate = compliant / (total_resources - exempt) * 100,
reported as 0 when the denominator is 0 instead of dividing by zero. -/
def evaluate_compliance (records : List ComplianceRecord) : ComplianceSummary :=
  let total := records.length
  let c := records.countP (fun r => r.status == Status.compliant)
  let n := records.countP (fun r => r.status == Status.non_compliant)
  let u := records.countP (fun r => r.status == Status.unknown)
  let e := records.countP (fun r => r.status == Status.exempt)
  { total_resources := total
    compliant := c
    non_compliant := n
    unknown := u
    exempt := e
    compliance_rate :=
      if total - e = 0 then 0 else (c : ℚ) / ((total - e : Nat) : ℚ) * 100 }

/-- A concrete store of ten compliance records: six compliant, two
non-compliant, one unknown, one exempt. -/
def sampleRecords : List ComplianceRecord :=
  [ ⟨("aws", "i-1"), Status.compliant, []⟩,
    ⟨("aws", "i-2"), Status.compliant, []⟩,
    ⟨("aws", "i-3"), Status.compliant, []⟩,
    ⟨("aws", "i-4"), Status.compliant, []⟩,
    ⟨("azure", "vm-1"), Status.compliant, []⟩,
    ⟨("azure", "vm-2"), Status.compliant, []⟩,
    ⟨("aws", "i-5"), Status.non_compliant, [⟨"owner", Reason.missing, false, none⟩]⟩,
    ⟨("aws", "i-6"), Status.non_compliant, [⟨"owner", Reason.missing, false, none⟩]⟩,
    ⟨("gcp", "vm-3"), Status.unknown, []⟩,
    ⟨("gcp", "vm-4"), Status.exempt, []⟩ ]

/-- TagRule, §3: a required tag with an optional set of allowed values and an
optional default value used for remediation proposals. -/
structure TagRule where
  name : String
  allowed_values : Option (List String)
  default_value : Option String
deriving DecidableEq

/-- Policy, §3/§6: name, active flag, ordered required_tags, applicable
resource_types and cloud_providers. -/
structure Policy where
  id : String
  name : String
  active : Bool
  required_tags : List TagRule
  resource_types : List String
  cloud_providers : List String
deriving DecidableEq

/-- Canonical Resource, §3: identity (provider, native_id), type, region and
the tag-key to tag-value mapping. -/
structure Resource where
  provider : String
  native_id : String
  resource_type : String
  region : String
  tags : List (String × String)
deriving DecidableEq

/-- Lookup of a tag value by key in a resource's tag mapping. -/
def lookupTag : List (String × String) → String → Option String
  | [], _ => none
  | (k, v) :: rest, key => if k = key then some v else lookupTag rest key

/-- Modelled from the spec: the per-TagRule check of the compliance evaluator
(§4.4, core compliance engine absent from src/).  Tag absent yields a
`missing` violation, auto-remediable exactly when the rule carries a
default_value, which is the suggested value; tag present with a non-empty
allowed_values set not containing the value yields an `invalid_value`
violation; otherwise the rule is satisfied. -/
def evalRule (tags : List (String × String)) (rule : TagRule) : List TagViolation :=
  match lookupTag tags rule.name with
  | none =>
    [⟨rule.name, Reason.missing, rule.default_value.isSome, rule.default_value⟩]
  | some v =>
    match rule.allowed_values with
    | none => []
    | some allowed =>
      if allowed = [] then []
      else if v ∈ allowed then []
      else [⟨rule.name, Reason.invalid_value, false, none⟩]

/-- Modelled from the spec: a policy matches a resource iff its
resource_types set contains the resource's type, its cloud_providers set
contains the resource's provider, and it is active (§4.4). -/
def policyMatches (p : Policy) (r : Resource) : Bool :=
  p.active && p.resource_types.contains r.resource_type
    && p.cloud_providers.contains r.provider

/-- The policies of a set that match a given resource. -/
def matchingPolicies (policies : List Policy) (r : Resource) : List Policy :=
  policies.filter (fun p => policyMatches p r)

/-- Modelled from the spec: all violations of one policy against a resource,
in rule order (§4.4). -/
def evalPolicy (r : Resource) (p : Policy) : List TagViolation :=
  p.required_tags.flatMap (fun rule => evalRule r.tags rule)

/-- Modelled from the spec: the pure compliance evaluator §4.4,
(Resource, active policies) to ComplianceRecord.  Zero matching policies
yield `unknown`; otherwise `compliant` iff no matching policy produces a
violation, else `non_compliant` with the violations aggregated from all
matching policies. -/
def evaluate_resource (r : Resource) (policies : List Policy) : ComplianceRecord :=
  let matching := matchingPolicies policies r
  let vs := matching.flatMap (fun p => evalPolicy r p)
  if matching = [] then ⟨(r.provider, r.native_id), Status.unknown, []⟩
  else if vs = [] then ⟨(r.provider, r.native_id), Status.compliant, []⟩
  else ⟨(r.provider, r.native_id), Status.non_compliant, vs⟩

/-- A resource's tags satisfy a TagRule, stated as in the spec's words: the
tag is present, and every non-empty allowed_values set of the rule contains
its value. -/
def SatisfiesRule (tags : List (String × String)) (rule : TagRule) : Prop :=
  ∃ v, lookupTag tags rule.name = some v ∧
    ∀ allowed, rule.allowed_values = some allowed → allowed ≠ [] → v ∈ allowed

/-- Modelled from the spec: one evaluation pass over a resource given the
previously stored record (§3, §4.4): a record manually set to `exempt` is a
standing override, never recomputed; otherwise the record is fully
recomputed by the pure evaluator. -/
def evaluatePass (existing : Option ComplianceRecord) (r : Resource)
    (policies : List Policy) : ComplianceRecord :=
  match existing with
  | some rec => if rec.status = Status.exempt then rec else evaluate_resource r policies
  | none => evaluate_resource r policies

/-- The `environment` rule of the guide's example policy: allowed values
production, staging, development, no default. -/
def envRule : TagRule :=
  ⟨"environment", some ["production", "staging", "development"], none⟩

/-- The `environment` rule as written in the guide's example policy, with
default_value "production". -/
def envRuleWithDefault : TagRule :=
  ⟨"environment", some ["production", "staging", "development"], some "production"⟩

/-- The `owner` rule of the guide's example policy: required, unrestricted. -/
def ownerRule : TagRule := ⟨"owner", none, none⟩

/-- The guide's example policy, restricted to the environment and owner
rules. -/
def samplePolicy : Policy :=
  ⟨"pol-1", "Production Resources Policy", true, [envRule, ownerRule],
    ["ec2", "s3", "rds", "vm", "storage-account"], ["aws", "azure"]⟩

/-- A concrete aws ec2 resource tagged environment=qa, owner=alice. -/
def qaResource : Resource :=
  ⟨"aws", "i-100", "ec2", "us-east-1", [("environment", "qa"), ("owner", "alice")]⟩

/-- Remediation workflow states, §4.5: pending_approval is initial; applied
and rejected are terminal; failed is re-approvable. -/
inductive WorkflowState where
  | pending_approval
  | approved
  | applying
  | applied
  | failed
  | rejected
deriving DecidableEq

/-- The terminal states: applied and rejected. -/
def WorkflowState.isTerminal : WorkflowState → Bool
  | WorkflowState.applied => true
  | WorkflowState.rejected => true
  | _ => false

/-- The events driving the workflow engine: external approval or rejection,
starting an apply, an apply succeeding, or an apply exhausting its retries. -/
inductive WorkflowEvent where
  | approve
  | reject
  | beginApply
  | applySucceeded
  | applyExhausted
deriving DecidableEq

/-- The invalid-transition error of the workflow engine. -/
inductive TransitionError where
  | invalidTransition
deriving DecidableEq

/-- Modelled from the spec: the §4.5 state machine of the remediation
workflow engine (absent from src/).  Exactly the transitions
pending_approval to approved or rejected, approved to applying, applying to
applied or (after exhausting retries, abstracted as the applyExhausted
event) to failed, and failed back to approved on re-approval; everything
else is an invalid-transition error. -/
def stepWorkflow : WorkflowState → WorkflowEvent → Except TransitionError WorkflowState
  | WorkflowState.pending_approval, WorkflowEvent.approve => Except.ok WorkflowState.approved
  | WorkflowState.pending_approval, WorkflowEvent.reject => Except.ok WorkflowState.rejected
  | WorkflowState.approved, WorkflowEvent.beginApply => Except.ok WorkflowState.applying
  | WorkflowState.applying, WorkflowEvent.applySucceeded => Except.ok WorkflowState.applied
  | WorkflowState.applying, WorkflowEvent.applyExhausted => Except.ok WorkflowState.failed
  | WorkflowState.failed, WorkflowEvent.approve => Except.ok WorkflowState.approved
  | _, _ => Except.error TransitionError.invalidTransition

/-- RemediationWorkflow, §3: id, resource identity, the snapshot of the
violations it remediates, the proposed tag changes and the current state
(approver identity and timestamps are audit metadata not touched by the
transition logic). -/
structure Workflow where
  id : String
  resource_id : String × String
  violations : List TagViolation
  proposed_changes : List (String × String)
  state : WorkflowState
deriving DecidableEq

/-- Modelled from the spec: the engine applies an event to a workflow,
changing only its state; an invalid transition is reported as an error and
produces no changed workflow. -/
def applyEvent (w : Workflow) (e : WorkflowEvent) : Except TransitionError Workflow :=
  match stepWorkflow w.state e with
  | Except.ok s => Except.ok { w with state := s }
  | Except.error err => Except.error err

/-- Modelled from the spec: the store operation advancing one workflow by id;
a workflow whose transition is invalid is left unchanged. -/
def advanceWorkflow (ws : List Workflow) (wid : String) (e : WorkflowEvent) :
    List Workflow :=
  ws.map (fun w =>
    if w.id = wid then
      match applyEvent w e with
      | Except.ok w2 => w2
      | Except.error _ => w
    else w)

/-- A workflow is open for a resource when it is for that resource and in a
non-terminal state. -/
def openPred (rid : String × String) (w : Workflow) : Bool :=
  decide (w.resource_id = rid) && !w.state.isTerminal

/-- The non-terminal workflows of a store for one resource. -/
def openFor (ws : List Workflow) (rid : String × String) : List Workflow :=
  ws.filter (openPred rid)

/-- The §3 invariant: at most one non-terminal workflow per resource. -/
def AtMostOneOpen (ws : List Workflow) : Prop :=
  ∀ rid, (openFor ws rid).length ≤ 1

/-- Modelled from the spec: the proposed tag changes derived from a record's
auto-remediable violations (missing-tag defaults). -/
def autoChanges (rec : ComplianceRecord) : List (String × String) :=
  rec.violations.filterMap (fun v =>
    match v.suggested_value with
    | some d => if v.auto_remediable then some (v.tag_name, d) else none
    | none => none)

/-- Modelled from the spec: workflow creation §4.5 — a non_compliant record
with auto-remediable violations generates a pending_approval workflow with
the proposed changes, suppressed when a non-terminal workflow already exists
for that resource. -/
def createWorkflow (ws : List Workflow) (newId : String) (rec : ComplianceRecord) :
    List Workflow :=
  if rec.status = Status.non_compliant ∧ autoChanges rec ≠ []
      ∧ openFor ws rec.resource_id = [] then
    ⟨newId, rec.resource_id, rec.violations, autoChanges rec,
      WorkflowState.pending_approval⟩ :: ws
  else ws

/-- The operations of the workflow engine on the workflow store. -/
inductive StoreOp where
  | create (newId : String) (rec : ComplianceRecord)
  | advance (wid : String) (e : WorkflowEvent)

/-- One engine operation applied to the store. -/
def applyOp (ws : List Workflow) : StoreOp → List Workflow
  | StoreOp.create i rec => createWorkflow ws i rec
  | StoreOp.advance wid e => advanceWorkflow ws wid e

/-- The stores reachable from the empty store by engine operations. -/
inductive Reachable : List Workflow → Prop where
  | init : Reachable []
  | step (ws : List Workflow) (op : StoreOp) : Reachable ws → Reachable (applyOp ws op)

/-- A concrete non-compliant record with an auto-remediable missing
environment tag. -/
def sampleNCRecord : ComplianceRecord :=
  ⟨("aws", "i-100"), Status.non_compliant,
    [⟨"environment", Reason.missing, true, some "production"⟩]⟩

/-- Modelled from the spec: setting one tag on a resource's tag mapping —
the connector's per-key tag write: overwrite in place when the key exists,
append otherwise. -/
def setTag : List (String × String) → String → String → List (String × String)
  | [], k, v => [(k, v)]
  | (k1, v1) :: rest, k, v =>
    if k1 = k then (k, v) :: rest else (k1, v1) :: setTag rest k v

/-- Applying a list of proposed tag changes in order. -/
def applyChanges (tags : List (String × String))
    (changes : List (String × String)) : List (String × String) :=
  changes.foldl (fun t kv => setTag t kv.1 kv.2) tags

/-- Modelled from the spec: one `Connector.applyTags` attempt with per-tag
outcome (§4.1, §4.5): each proposed key either fails (left unapplied and
collected in the per-tag failure list) or is written; returns the resulting
tags and the failed changes, which are exactly what a retry re-submits. -/
def applyAttempt (fails : String → Bool) :
    List (String × String) → List (String × String) →
      List (String × String) × List (String × String)
  | tags, [] => (tags, [])
  | tags, (k, v) :: rest =>
    if fails k then
      let res := applyAttempt fails tags rest
      (res.1, (k, v) :: res.2)
    else
      applyAttempt fails (setTag tags k v) rest

/-- One unit of scan work: a (provider, resource_type) pair, §4.3. -/
structure ScanUnit where
  provider : String
  resource_type : String
deriving DecidableEq

/-- The outcome of listing one scan unit: a successful listing of so many
resources, or a failure with so many errors. -/
inductive UnitOutcome where
  | success (resources : Nat)
  | failure (errors : Nat)
deriving DecidableEq

/-- One per-resource-type line of a ScanRun's audit counts, §3. -/
structure ScanEntry where
  unit : ScanUnit
  success_count : Nat
  error_count : Nat
deriving DecidableEq

/-- Modelled from the spec: recording one unit's outcome into the ScanRun
counts — a failure is logged in the error counts of that unit only. -/
def recordUnit (outcome : ScanUnit → UnitOutcome) (u : ScanUnit) : ScanEntry :=
  match outcome u with
  | UnitOutcome.success n => ⟨u, n, 0⟩
  | UnitOutcome.failure e => ⟨u, 0, e⟩

/-- Modelled from the spec: a scan run §4.3 launches every
(provider, resource_type) unit and records each outcome; a failing unit does
not cancel sibling units. -/
def runScan (outcome : ScanUnit → UnitOutcome) (units : List ScanUnit) :
    List ScanEntry :=
  units.map (recordUnit outcome)

/-- The ScanRun entries belonging to one provider. -/
def entriesFor (provider : String) (entries : List ScanEntry) : List ScanEntry :=
  entries.filter (fun en => decide (en.unit.provider = provider))

/-- A sample scan over two providers. -/
def sampleUnits : List ScanUnit := [⟨"aws", "ec2"⟩, ⟨"azure", "vm"⟩]

/-- A run in which the aws provider fails while azure is healthy. -/
def failingOutcome : ScanUnit → UnitOutcome :=
  fun u => if u.provider = "aws" then UnitOutcome.failure 1 else UnitOutcome.success 5

/-- The same run with aws healthy instead. -/
def healthyOutcome : ScanUnit → UnitOutcome :=
  fun u => if u.provider = "aws" then UnitOutcome.success 3 else UnitOutcome.success 5

/-- JavaScript ToNumber coercion restricted to the values the dashboard can
receive in `compliance_rate`: a number, or null (which coerces to 0). -/
def jsToNumber : Option ℚ → ℚ
  | none => 0
  | some q => q

/-- JavaScript `Math.round`: round half toward positive infinity,
`Math.round(x) = floor(x + 1/2)`. -/
def jsMathRound (q : ℚ) : ℤ := ⌊q + 1 / 2⌋

/-- The object the frontend receives from `GET /api/compliance/status`
(src/frontend/src/api/compliance.js), as destructured by the
`ComplianceOverview` component in src/unnamed/part_002; `compliance_rate`
may be null per §6 of the spec. -/
structure JsComplianceStatus where
  total_resources : Int
  compliant : Int
  non_compliant : Int
  unknown : Int
  exempt : Int
  compliance_rate : Option ℚ
deriving DecidableEq

/-- The data the `ComplianceOverview` card renders: the rounded overall rate
and the five counters. -/
structure OverviewRendering where
  overallRatePercent : ℤ
  totalResources : Int
  compliantCount : Int
  nonCompliantCount : Int
  unknownCount : Int
  exemptCount : Int
deriving DecidableEq

/-- Embedding of the `ComplianceOverview` React component
(src/unnamed/part_002, lines 4-48): a falsy (null/undefined)
`complianceStatus` renders nothing (`return null`); otherwise the card shows
`Math.round(compliance_rate)` as the overall rate together with the five
counters. -/
def ComplianceOverview : Option JsComplianceStatus → Option OverviewRendering
  | none => none
  | some s =>
    some { overallRatePercent := jsMathRound (jsToNumber s.compliance_rate)
           totalResources := s.total_resources
           compliantCount := s.compliant
           nonCompliantCount := s.non_compliant
           unknownCount := s.unknown
           exemptCount := s.exempt }

theorem sample_compliance_rate :
    (evaluate_compliance sampleRecords).compliance_rate = 200 / 3 := by
  have hc : sampleRecords.countP (fun r => r.status == Status.compliant) = 6 := by decide
  have he : sampleRecords.countP (fun r => r.status == Status.exempt) = 1 := by decide
  have hl : sampleRecords.length = 10 := by decide
  simp only [evaluate_compliance, hc, he, hl]
  norm_num

theorem counts_partition (records : List ComplianceRecord) :
    records.countP (fun r => r.status == Status.compliant)
      + records.countP (fun r => r.status == Status.non_compliant)
      + records.countP (fun r => r.status == Status.unknown)
      + records.countP (fun r => r.status == Status.exempt)
      = records.length := by
  induction records with
  | nil => simp
  | cons r rs ih =>
    cases h : r.status <;>
      simp [List.countP_cons, h] <;> omega

/-- Claim C1: the `evaluate_compliance()` summary carries the per-status
counts (which partition the total), its compliance_rate equals
compliant / (total_resources - exempt) * 100 whenever the denominator is
nonzero, is reported as 0 when the denominator is 0 (never a division by
zero), and on the concrete store of 10 records with 6 compliant, 2
non-compliant, 1 unknown, 1 exempt the rate is 200/3, within 0.1 of 66.7. -/
theorem evaluate_compliance_summary_spec (records : List ComplianceRecord) :
    (evaluate_compliance records).compliant + (evaluate_compliance records).non_compliant
        + (evaluate_compliance records).unknown + (evaluate_compliance records).exempt
      = (evaluate_compliance records).total_resources
    ∧ ((evaluate_compliance records).total_resources - (evaluate_compliance records).exempt ≠ 0 →
        (evaluate_compliance records).compliance_rate
          = ((evaluate_compliance records).compliant : ℚ)
            / (((evaluate_compliance records).total_resources
                - (evaluate_compliance records).exempt : Nat) : ℚ) * 100)
    ∧ ((evaluate_compliance records).total_resources - (evaluate_compliance records).exempt = 0 →
        (evaluate_compliance records).compliance_rate = 0)
    ∧ (evaluate_compliance sampleRecords).total_resources = 10
    ∧ (evaluate_compliance sampleRecords).compliant = 6
    ∧ (evaluate_compliance sampleRecords).non_compliant = 2
    ∧ (evaluate_compliance sampleRecords).unknown = 1
    ∧ (evaluate_compliance sampleRecords).exempt = 1
    ∧ (evaluate_compliance sampleRecords).compliance_rate = 200 / 3
    ∧ |(evaluate_compliance sampleRecords).compliance_rate - 667 / 10| < 1 / 10 := by
  refine ⟨counts_partition records, ?_, ?_, ?_, ?_, ?_, ?_, ?_, ?_, ?_⟩
  · intro h
    simp only [evaluate_compliance] at h ⊢
    rw [if_neg h]
  · intro h
    simp only [evaluate_compliance] at h ⊢
    rw [if_pos h]
  · decide
  · decide
  · decide
  · decide
  · decide
  · exact sample_compliance_rate
  · rw [sample_compliance_rate, abs_lt]
    constructor <;> norm_num

/-- Witness for C1 at the concrete sample store, where the denominator is
nonzero and the reported rate is 200/3. -/
theorem evaluate_compliance_summary_spec_witness :
    (evaluate_compliance sampleRecords).total_resources
        - (evaluate_compliance sampleRecords).exempt ≠ 0
    ∧ (evaluate_compliance sampleRecords).compliance_rate
        = ((evaluate_compliance sampleRecords).compliant : ℚ)
          / (((evaluate_compliance sampleRecords).total_resources
              - (evaluate_compliance sampleRecords).exempt : Nat) : ℚ) * 100 :=
  ⟨by decide, (evaluate_compliance_summary_spec sampleRecords).2.1 (by decide)⟩

theorem evalRule_eq_nil_iff (tags : List (String × String)) (rule : TagRule) :
    evalRule tags rule = [] ↔ SatisfiesRule tags rule := by
  unfold evalRule SatisfiesRule
  cases h : lookupTag tags rule.name with
  | none => simp
  | some v =>
    cases ha : rule.allowed_values with
    | none => simp
    | some allowed =>
      by_cases hnil : allowed = []
      · subst hnil
        simp
      · by_cases hv : v ∈ allowed
        · simp only [if_neg hnil, if_pos hv, true_iff]
          exact ⟨v, rfl, fun al hal _ => by cases hal; exact hv⟩
        · simp only [if_neg hnil, if_neg hv]
          constructor
          · intro hcontr
            exact absurd hcontr (by simp)
          · rintro ⟨v', hv', hall⟩
            cases hv'
            exact absurd (hall allowed rfl hnil) hv

theorem evalPolicy_eq_nil_iff (r : Resource) (p : Policy) :
    evalPolicy r p = [] ↔ ∀ rule ∈ p.required_tags, SatisfiesRule r.tags rule := by
  unfold evalPolicy
  rw [List.flatMap_eq_nil_iff]
  constructor
  · intro h rule hr
    exact (evalRule_eq_nil_iff r.tags rule).mp (h rule hr)
  · intro h rule hr
    exact (evalRule_eq_nil_iff r.tags rule).mpr (h rule hr)

theorem aggregated_eq_nil_iff (r : Resource) (policies : List Policy) :
    (matchingPolicies policies r).flatMap (fun p => evalPolicy r p) = [] ↔
      ∀ p ∈ matchingPolicies policies r, ∀ rule ∈ p.required_tags,
        SatisfiesRule r.tags rule := by
  rw [List.flatMap_eq_nil_iff]
  constructor
  · intro h p hp
    exact (evalPolicy_eq_nil_iff r p).mp (h p hp)
  · intro h p hp
    exact (evalPolicy_eq_nil_iff r p).mpr (h p hp)

theorem evaluate_resource_ne_exempt (r : Resource) (policies : List Policy) :
    (evaluate_resource r policies).status ≠ Status.exempt := by
  simp only [evaluate_resource]
  split
  · simp
  · split <;> simp

/-- Claim C2: a policy matches iff its resource_types contain the resource's
type, its cloud_providers contain the provider, and it is active; zero
matching policies yield status unknown; with at least one match the status is
compliant iff the resource satisfies every rule of every matching policy,
and otherwise it is non_compliant with the violations aggregated from all
matching policies. -/
theorem evaluator_matching_semantics (r : Resource) (policies : List Policy) :
    (∀ p : Policy, policyMatches p r = true ↔
        (p.active = true ∧ r.resource_type ∈ p.resource_types
          ∧ r.provider ∈ p.cloud_providers))
    ∧ (matchingPolicies policies r = [] →
        (evaluate_resource r policies).status = Status.unknown)
    ∧ (matchingPolicies policies r ≠ [] →
        ((evaluate_resource r policies).status = Status.compliant ↔
          ∀ p ∈ matchingPolicies policies r, ∀ rule ∈ p.required_tags,
            SatisfiesRule r.tags rule))
    ∧ (matchingPolicies policies r ≠ [] →
        ¬ (∀ p ∈ matchingPolicies policies r, ∀ rule ∈ p.required_tags,
            SatisfiesRule r.tags rule) →
        (evaluate_resource r policies).status = Status.non_compliant
        ∧ (evaluate_resource r policies).violations
            = (matchingPolicies policies r).flatMap (fun p => evalPolicy r p)) := by
  refine ⟨?_, ?_, ?_, ?_⟩
  · intro p
    simp [policyMatches, and_assoc]
  · intro h
    simp [evaluate_resource, h]
  · intro h
    simp only [evaluate_resource, if_neg h]
    rw [← aggregated_eq_nil_iff r policies]
    by_cases hvs : (matchingPolicies policies r).flatMap (fun p => evalPolicy r p) = []
    · simp [hvs]
    · simp [hvs]
  · intro h hnot
    rw [← aggregated_eq_nil_iff r policies] at hnot
    simp [evaluate_resource, if_neg h, hnot]

/-- Witness for C2 at the qa resource against the example policy: one
matching policy, the environment rule fails, so the record is non_compliant
with the aggregated violations. -/
theorem evaluator_matching_semantics_witness :
    (evaluate_resource qaResource [samplePolicy]).status = Status.non_compliant
    ∧ (evaluate_resource qaResource [samplePolicy]).violations
        = (matchingPolicies [samplePolicy] qaResource).flatMap
            (fun p => evalPolicy qaResource p) :=
  (evaluator_matching_semantics qaResource [samplePolicy]).2.2.2 (by decide)
    (fun hall =>
      absurd ((evalRule_eq_nil_iff qaResource.tags envRule).mpr
          (hall samplePolicy (by decide) envRule (by decide)))
        (by decide))

/-- Claim C3: per TagRule, an absent tag yields exactly one `missing`
violation for that tag (and no `invalid_value` one); a present tag with a
non-empty allowed_values set not containing its value yields one
`invalid_value` violation; a present tag with no allowed_values set, or with
its value allowed, yields no violation; concretely, environment=qa against
allowed values production/staging/development yields one `invalid_value`
violation. -/
theorem tagRule_violation_cases (tags : List (String × String)) (rule : TagRule) :
    (lookupTag tags rule.name = none →
      ∃ viol, evalRule tags rule = [viol]
        ∧ viol.tag_name = rule.name ∧ viol.reason = Reason.missing)
    ∧ (∀ v allowed, lookupTag tags rule.name = some v →
        rule.allowed_values = some allowed → allowed ≠ [] → v ∉ allowed →
        evalRule tags rule = [⟨rule.name, Reason.invalid_value, false, none⟩])
    ∧ (∀ v, lookupTag tags rule.name = some v →
        (rule.allowed_values = none
          ∨ ∃ allowed, rule.allowed_values = some allowed ∧ v ∈ allowed) →
        evalRule tags rule = [])
    ∧ evalRule [("environment", "qa")] envRule
        = [⟨"environment", Reason.invalid_value, false, none⟩] := by
  refine ⟨?_, ?_, ?_, by decide⟩
  · intro h
    refine ⟨⟨rule.name, Reason.missing, rule.default_value.isSome,
      rule.default_value⟩, ?_, rfl, rfl⟩
    simp [evalRule, h]
  · intro v allowed hv ha hnil hmem
    simp [evalRule, hv, ha, hnil, hmem]
  · intro v hv hcase
    rcases hcase with hnone | ⟨allowed, ha, hmem⟩
    · simp [evalRule, hv, hnone]
    · simp [evalRule, hv, ha, hmem]

/-- Witness for C3: a resource with no tags misses the owner tag (one
`missing` violation), and qa is rejected for environment. -/
theorem tagRule_violation_cases_witness :
    ∃ viol, evalRule [] ownerRule = [viol]
      ∧ viol.tag_name = ownerRule.name ∧ viol.reason = Reason.missing :=
  (tagRule_violation_cases [] ownerRule).1 rfl

/-- Claim C8: a rule carrying a default_value still records a `missing`
violation when the tag is absent — the default never satisfies the rule or
suppresses the violation; it only marks the violation auto-remediable and
supplies the suggested value. -/
theorem default_value_still_violation (tags : List (String × String))
    (rule : TagRule) (d : String) :
    rule.default_value = some d → lookupTag tags rule.name = none →
    evalRule tags rule = [⟨rule.name, Reason.missing, true, some d⟩]
    ∧ ¬ SatisfiesRule tags rule := by
  intro hd hl
  constructor
  · simp [evalRule, hl, hd]
  · rintro ⟨v, hv, _⟩
    rw [hl] at hv
    exact Option.noConfusion hv

/-- Witness for C8: a resource tagged only owner=alice misses environment;
the defaulted environment rule still yields a missing violation, remediable
with "production". -/
theorem default_value_still_violation_witness :
    evalRule [("owner", "alice")] envRuleWithDefault
        = [⟨"environment", Reason.missing, true, some "production"⟩]
    ∧ ¬ SatisfiesRule [("owner", "alice")] envRuleWithDefault :=
  default_value_still_violation [("owner", "alice")] envRuleWithDefault
    "production" rfl rfl

/-- Claim C6: evaluation is idempotent — a second pass with unchanged
resource and policies returns the identical record; the pure evaluator never
produces `exempt`, and a record manually set to `exempt` persists across
evaluation passes untouched. -/
theorem evaluation_idempotent (prev : Option ComplianceRecord) (r : Resource)
    (policies : List Policy) :
    evaluatePass (some (evaluatePass prev r policies)) r policies
        = evaluatePass prev r policies
    ∧ (evaluate_resource r policies).status ≠ Status.exempt
    ∧ (∀ rec : ComplianceRecord, rec.status = Status.exempt →
        evaluatePass (some rec) r policies = rec) := by
  refine ⟨?_, evaluate_resource_ne_exempt r policies, ?_⟩
  · cases prev with
    | none => simp [evaluatePass, if_neg (evaluate_resource_ne_exempt r policies)]
    | some rec =>
      by_cases h : rec.status = Status.exempt
      · simp [evaluatePass, h]
      · simp [evaluatePass, h, if_neg (evaluate_resource_ne_exempt r policies)]
  · intro rec h
    simp [evaluatePass, h]

/-- Witness for C6: an exempt record survives an evaluation pass unchanged. -/
theorem evaluation_idempotent_witness :
    evaluatePass (some ⟨("gcp", "vm-4"), Status.exempt, []⟩) qaResource [samplePolicy]
      = ⟨("gcp", "vm-4"), Status.exempt, []⟩ :=
  (evaluation_idempotent none qaResource [samplePolicy]).2.2
    ⟨("gcp", "vm-4"), Status.exempt, []⟩ rfl

theorem stepWorkflow_terminal (s : WorkflowState) (e : WorkflowEvent)
    (h : s.isTerminal = true) :
    stepWorkflow s e = Except.error TransitionError.invalidTransition := by
  cases s <;> simp [WorkflowState.isTerminal] at h <;> cases e <;> rfl

theorem applyEvent_ok (w : Workflow) (e : WorkflowEvent) (w2 : Workflow)
    (h : applyEvent w e = Except.ok w2) :
    stepWorkflow w.state e = Except.ok w2.state
    ∧ w2.id = w.id ∧ w2.resource_id = w.resource_id
    ∧ w2.violations = w.violations
    ∧ w2.proposed_changes = w.proposed_changes := by
  unfold applyEvent at h
  cases hstep : stepWorkflow w.state e with
  | ok s =>
    rw [hstep] at h
    injection h with h
    subst h
    exact ⟨rfl, rfl, rfl, rfl, rfl⟩
  | error err =>
    rw [hstep] at h
    exact Except.noConfusion h

theorem stepWorkflow_ok_cases (s s2 : WorkflowState) (e : WorkflowEvent)
    (h : stepWorkflow s e = Except.ok s2) :
    (s = WorkflowState.pending_approval ∧ s2 = WorkflowState.approved)
    ∨ (s = WorkflowState.pending_approval ∧ s2 = WorkflowState.rejected)
    ∨ (s = WorkflowState.approved ∧ s2 = WorkflowState.applying)
    ∨ (s = WorkflowState.applying ∧ s2 = WorkflowState.applied)
    ∨ (s = WorkflowState.applying ∧ s2 = WorkflowState.failed)
    ∨ (s = WorkflowState.failed ∧ s2 = WorkflowState.approved) := by
  cases s <;> cases e <;> simp [stepWorkflow] at h <;> subst h <;> simp

/-- Claim C4: no workflow leaves a terminal state — from applied or rejected
every event yields an invalid-transition error and (at the store level) the
workflow is unchanged; and every transition the engine performs is one of
pending_approval to approved/rejected, approved to applying, applying to
applied/failed, failed to approved. -/
theorem no_exit_from_terminal (w : Workflow) (e : WorkflowEvent) :
    (w.state.isTerminal = true →
      applyEvent w e = Except.error TransitionError.invalidTransition)
    ∧ (w.state.isTerminal = true → advanceWorkflow [w] w.id e = [w])
    ∧ (∀ w2, applyEvent w e = Except.ok w2 →
        w2.id = w.id ∧ w2.resource_id = w.resource_id
        ∧ w2.violations = w.violations
        ∧ w2.proposed_changes = w.proposed_changes
        ∧ ((w.state = WorkflowState.pending_approval ∧ w2.state = WorkflowState.approved)
          ∨ (w.state = WorkflowState.pending_approval ∧ w2.state = WorkflowState.rejected)
          ∨ (w.state = WorkflowState.approved ∧ w2.state = WorkflowState.applying)
          ∨ (w.state = WorkflowState.applying ∧ w2.state = WorkflowState.applied)
          ∨ (w.state = WorkflowState.applying ∧ w2.state = WorkflowState.failed)
          ∨ (w.state = WorkflowState.failed ∧ w2.state = WorkflowState.approved))) := by
  have herr : w.state.isTerminal = true →
      applyEvent w e = Except.error TransitionError.invalidTransition := by
    intro ht
    unfold applyEvent
    rw [stepWorkflow_terminal w.state e ht]
  refine ⟨herr, ?_, ?_⟩
  · intro ht
    simp [advanceWorkflow, herr ht]
  · intro w2 h
    obtain ⟨hstep, hid, hrid, hviol, hprop⟩ := applyEvent_ok w e w2 h
    exact ⟨hid, hrid, hviol, hprop, stepWorkflow_ok_cases _ _ _ hstep⟩

/-- Witness for C4: an applied workflow rejects an approval event. -/
theorem no_exit_from_terminal_witness :
    applyEvent ⟨"wf-1", ("aws", "i-100"), [], [], WorkflowState.applied⟩
        WorkflowEvent.approve
      = Except.error TransitionError.invalidTransition :=
  (no_exit_from_terminal
    ⟨"wf-1", ("aws", "i-100"), [], [], WorkflowState.applied⟩
    WorkflowEvent.approve).1 rfl

theorem length_filter_map_le {α : Type} (f : α → α) (p : α → Bool)
    (hp : ∀ a, p (f a) = true → p a = true) (l : List α) :
    ((l.map f).filter p).length ≤ (l.filter p).length := by
  induction l with
  | nil => simp
  | cons a l ih =>
    simp only [List.map_cons, List.filter_cons]
    by_cases hfa : p (f a) = true
    · rw [if_pos hfa, if_pos (hp a hfa)]
      simpa using ih
    · rw [if_neg hfa]
      by_cases ha : p a = true
      · rw [if_pos ha]
        exact Nat.le_succ_of_le ih
      · rw [if_neg ha]
        exact ih

theorem create_preserves (ws : List Workflow) (i : String) (rec : ComplianceRecord)
    (h : AtMostOneOpen ws) : AtMostOneOpen (createWorkflow ws i rec) := by
  unfold createWorkflow
  split
  · rename_i hcond
    obtain ⟨hstat, hch, hopen⟩ := hcond
    intro rid
    by_cases hr : rec.resource_id = rid
    · subst hr
      have hpred : openPred rec.resource_id
          ⟨i, rec.resource_id, rec.violations, autoChanges rec,
            WorkflowState.pending_approval⟩ = true := by
        simp [openPred, WorkflowState.isTerminal]
      simp only [openFor, List.filter_cons, hpred, if_pos]
      have hopen2 : ws.filter (openPred rec.resource_id) = [] := hopen
      rw [hopen2]
      simp
    · have hpred : openPred rid
          ⟨i, rec.resource_id, rec.violations, autoChanges rec,
            WorkflowState.pending_approval⟩ = false := by
        simp [openPred, hr]
      simp only [openFor, List.filter_cons, hpred]
      simp only [Bool.false_eq_true, if_false]
      exact h rid
  · exact h

theorem advance_preserves (ws : List Workflow) (wid : String) (e : WorkflowEvent)
    (h : AtMostOneOpen ws) : AtMostOneOpen (advanceWorkflow ws wid e) := by
  intro rid
  refine le_trans ?_ (h rid)
  unfold advanceWorkflow openFor
  apply length_filter_map_le
  intro w hw
  by_cases hid : w.id = wid
  · rw [if_pos hid] at hw
    cases happ : applyEvent w e with
    | ok w2 =>
      rw [happ] at hw
      obtain ⟨hstep, hid2, hrid2, hviol2, hprop2⟩ := applyEvent_ok w e w2 happ
      simp only [openPred, Bool.and_eq_true, decide_eq_true_eq,
        Bool.not_eq_true'] at hw ⊢
      obtain ⟨hw1, hw2⟩ := hw
      refine ⟨by rw [← hrid2]; exact hw1, ?_⟩
      by_cases hterm : w.state.isTerminal = true
      · exfalso
        have herr : applyEvent w e = Except.error TransitionError.invalidTransition := by
          unfold applyEvent
          rw [stepWorkflow_terminal w.state e hterm]
        rw [happ] at herr
        exact Except.noConfusion herr
      · simpa using hterm
    | error err =>
      rw [happ] at hw
      exact hw
  · rw [if_neg hid] at hw
    exact hw

theorem applyOp_preserves (ws : List Workflow) (op : StoreOp)
    (h : AtMostOneOpen ws) : AtMostOneOpen (applyOp ws op) := by
  cases op with
  | create i rec => exact create_preserves ws i rec h
  | advance wid e => exact advance_preserves ws wid e h

/-- Claim C5: every reachable workflow store has at most one non-terminal
workflow per resource; creation is suppressed whenever a non-terminal
workflow already exists for the record's resource; and every engine
operation preserves the invariant. -/
theorem at_most_one_open_invariant (ws : List Workflow) (h : Reachable ws) :
    AtMostOneOpen ws
    ∧ (∀ (ws2 : List Workflow) (newId : String) (rec : ComplianceRecord),
        openFor ws2 rec.resource_id ≠ [] → createWorkflow ws2 newId rec = ws2)
    ∧ (∀ (ws2 : List Workflow) (op : StoreOp),
        AtMostOneOpen ws2 → AtMostOneOpen (applyOp ws2 op)) := by
  refine ⟨?_, ?_, fun ws2 op h2 => applyOp_preserves ws2 op h2⟩
  · induction h with
    | init =>
      intro rid
      simp [openFor]
    | step ws2 op hr ih =>
      exact applyOp_preserves ws2 op ih
  · intro ws2 newId rec hopen
    unfold createWorkflow
    rw [if_neg]
    rintro ⟨_, _, hnil⟩
    exact hopen hnil

/-- Witness for C5: the store reached by creating one workflow from the
sample record satisfies the invariant. -/
theorem at_most_one_open_invariant_witness :
    AtMostOneOpen (applyOp [] (StoreOp.create "wf-1" sampleNCRecord)) :=
  (at_most_one_open_invariant (applyOp [] (StoreOp.create "wf-1" sampleNCRecord))
    (Reachable.step [] (StoreOp.create "wf-1" sampleNCRecord) Reachable.init)).1

theorem setTag_noop (t : List (String × String)) (k v : String)
    (h : lookupTag t k = some v) : setTag t k v = t := by
  induction t with
  | nil => exact Option.noConfusion h
  | cons kv rest ih =>
    obtain ⟨k1, v1⟩ := kv
    by_cases hk : k1 = k
    · subst hk
      simp [lookupTag] at h
      simp [setTag, h]
    · simp [lookupTag, hk] at h
      simp [setTag, hk, ih h]

theorem applyChanges_noop (t succ : List (String × String))
    (h : ∀ kv ∈ succ, lookupTag t kv.1 = some kv.2) : applyChanges t succ = t := by
  induction succ with
  | nil => rfl
  | cons kv rest ih =>
    have hset : setTag t kv.1 kv.2 = t :=
      setTag_noop t kv.1 kv.2 (h kv (List.mem_cons_self kv rest))
    simp only [applyChanges, List.foldl_cons, hset]
    exact ih (fun kv2 hkv2 => h kv2 (List.mem_cons_of_mem _ hkv2))

theorem applyAttempt_snd (fails : String → Bool)
    (changes tags : List (String × String)) :
    (applyAttempt fails tags changes).2
      = changes.filter (fun kv => fails kv.1) := by
  induction changes generalizing tags with
  | nil => rfl
  | cons kv rest ih =>
    obtain ⟨k, v⟩ := kv
    by_cases hf : fails k
    · simp [applyAttempt, hf, ih]
    · simp [applyAttempt, hf, ih]

theorem applyAttempt_fst (fails : String → Bool)
    (changes tags : List (String × String)) :
    (applyAttempt fails tags changes).1
      = applyChanges tags (changes.filter (fun kv => !fails kv.1)) := by
  induction changes generalizing tags with
  | nil => rfl
  | cons kv rest ih =>
    obtain ⟨k, v⟩ := kv
    by_cases hf : fails k
    · simp [applyAttempt, hf, ih]
    · simp [applyAttempt, applyChanges, hf, ih]

/-- Claim C7: a retry after a partial per-tag failure re-submits exactly the
failed changes (the attempt writes exactly the non-failing keys), and
re-applying a key that already carries the proposed value is a no-op leaving
that key's value and every other tag unchanged. -/
theorem retry_only_failed_reapply_noop (fails : String → Bool)
    (tags changes : List (String × String)) :
    (applyAttempt fails tags changes).2 = changes.filter (fun kv => fails kv.1)
    ∧ (applyAttempt fails tags changes).1
        = applyChanges tags (changes.filter (fun kv => !fails kv.1))
    ∧ (∀ (t : List (String × String)) (k v : String),
        lookupTag t k = some v → setTag t k v = t)
    ∧ (∀ t succ : List (String × String),
        (∀ kv ∈ succ, lookupTag t kv.1 = some kv.2) → applyChanges t succ = t) :=
  ⟨applyAttempt_snd fails changes tags, applyAttempt_fst fails changes tags,
    setTag_noop, applyChanges_noop⟩

/-- Witness for C7: re-applying owner=alice on tags already carrying it
leaves the whole mapping unchanged. -/
theorem retry_only_failed_reapply_noop_witness :
    setTag [("environment", "production"), ("owner", "alice")] "owner" "alice"
      = [("environment", "production"), ("owner", "alice")] :=
  (retry_only_failed_reapply_noop (fun _ => false) [] []).2.2.1
    [("environment", "production"), ("owner", "alice")] "owner" "alice" rfl

theorem recordUnit_unit (outcome : ScanUnit → UnitOutcome) (u : ScanUnit) :
    (recordUnit outcome u).unit = u := by
  unfold recordUnit
  cases outcome u <;> rfl

theorem entriesFor_runScan_congr (o o2 : ScanUnit → UnitOutcome)
    (units : List ScanUnit) (B : String)
    (hagree : ∀ u ∈ units, u.provider = B → o u = o2 u) :
    entriesFor B (runScan o units) = entriesFor B (runScan o2 units) := by
  induction units with
  | nil => rfl
  | cons u rest ih =>
    have ih2 := ih (fun u2 hu2 hB => hagree u2 (List.mem_cons_of_mem _ hu2) hB)
    simp only [runScan, List.map_cons, entriesFor, List.filter_cons,
      recordUnit_unit] at ih2 ⊢
    by_cases hB : u.provider = B
    · have hrec : recordUnit o u = recordUnit o2 u := by
        unfold recordUnit
        rw [hagree u (List.mem_cons_self u rest) hB]
      rw [hrec, ih2]
    · rw [if_neg (by simp [hB]), if_neg (by simp [hB])]
      exact ih2

/-- Claim C9: a failing unit's errors are isolated — the entries recorded
for another provider are identical to what they would be had the failure not
happened; every unit of the run is recorded (no cancellation of siblings),
and a failing unit's errors land in that unit's own entry. -/
theorem scan_errors_isolated (o o2 : ScanUnit → UnitOutcome)
    (units : List ScanUnit) (B : String)
    (hagree : ∀ u ∈ units, u.provider = B → o u = o2 u) :
    entriesFor B (runScan o units) = entriesFor B (runScan o2 units)
    ∧ (runScan o units).length = units.length
    ∧ (∀ u ∈ units, recordUnit o u ∈ runScan o units)
    ∧ (∀ u ∈ units, ∀ n, o u = UnitOutcome.failure n →
        (⟨u, 0, n⟩ : ScanEntry) ∈ runScan o units) := by
  refine ⟨entriesFor_runScan_congr o o2 units B hagree, by simp [runScan], ?_, ?_⟩
  · intro u hu
    exact List.mem_map_of_mem _ hu
  · intro u hu n hn
    have : recordUnit o u = ⟨u, 0, n⟩ := by
      unfold recordUnit
      rw [hn]
    rw [← this]
    exact List.mem_map_of_mem _ hu

/-- Witness for C9: over aws (failing) and azure (healthy), the azure
entries of the failing run equal those of the healthy run. -/
theorem scan_errors_isolated_witness :
    entriesFor "azure" (runScan failingOutcome sampleUnits)
      = entriesFor "azure" (runScan healthyOutcome sampleUnits) :=
  (scan_errors_isolated failingOutcome healthyOutcome sampleUnits "azure"
    (by decide)).1

/-- Claim C10: `ComplianceOverview` is total on its input: null input renders
nothing, every non-null summary renders, and the displayed overall rate is
`Math.round` of the `compliance_rate` field, so a null rate (the
zero-denominator report) displays as 0 and a rate of 66.7 displays as 67. -/
theorem complianceOverview_total_round (s : JsComplianceStatus) :
    ComplianceOverview none = none
    ∧ (∃ v, ComplianceOverview (some s) = some v
        ∧ v.overallRatePercent = jsMathRound (jsToNumber s.compliance_rate)
        ∧ v.totalResources = s.total_resources
        ∧ v.compliantCount = s.compliant
        ∧ v.nonCompliantCount = s.non_compliant
        ∧ v.unknownCount = s.unknown
        ∧ v.exemptCount = s.exempt)
    ∧ (s.compliance_rate = none →
        ∃ v, ComplianceOverview (some s) = some v ∧ v.overallRatePercent = 0)
    ∧ (s.compliance_rate = some (667 / 10) →
        ∃ v, ComplianceOverview (some s) = some v ∧ v.overallRatePercent = 67) := by
  refine ⟨rfl, ⟨_, rfl, rfl, rfl, rfl, rfl, rfl, rfl⟩, ?_, ?_⟩
  · intro h
    refine ⟨_, rfl, ?_⟩
    simp only [jsMathRound, jsToNumber, h]
    rw [Int.floor_eq_iff]
    constructor <;> norm_num
  · intro h
    refine ⟨_, rfl, ?_⟩
    simp only [jsMathRound, jsToNumber, h]
    rw [Int.floor_eq_iff]
    constructor <;> norm_num

/-- Witness for C10 at a concrete summary carrying compliance_rate 66.7. -/
theorem complianceOverview_total_round_witness :
    ∃ v, ComplianceOverview (some ⟨10, 6, 2, 1, 1, some (667 / 10)⟩) = some v
      ∧ v.overallRatePercent = 67 :=
  (complianceOverview_total_round ⟨10, 6, 2, 1, 1, some (667 / 10)⟩).2.2.2 rfl

end FinOps
